import Mathlib

/-!
Shallow embedding of the Game Boy printer web client core
(`src/js/printer.js`): the firmware byte-stream parser
(`processFirmwareByte`), the packet dispatcher (`processPacket`), the RLE
decompressor (`decompressRLE`), the image reconstructor (`renderImage` /
`decodeTile`) and the idle-timeout reset of `printerLoop`.

Bytes are modelled as `Nat` (the source only ever receives values 0..255
from a `Uint8Array`).  The DOM / status-text side effects are dropped; the
images produced by `renderImage` on the print-trigger marker are recorded
in an `images` field so that "a packet was dispatched / an image was
rendered" is observable.
-/

/-- Parser states, from the `ParserState` enumeration of the source. -/
inductive ParserState where
  | WAIT_START
  | WAIT_COMMAND
  | WAIT_COMPRESSION
  | WAIT_LEN_LOW
  | WAIT_LEN_HIGH
  | READ_DATA
deriving DecidableEq

/-- The recognized printer command bytes (`PrinterCommand` and the
`validCommands` list in `processFirmwareByte`): INIT, PRINT, DATA, BREAK,
INQUIRY. -/
def validCommands : List Nat := [0x01, 0x02, 0x04, 0x08, 0x0F]

/-- The fixed 4-entry palette for 2bpp tiles (`PALETTE` in the source),
lightest to darkest. -/
def PALETTE : List (List Nat) := [[255, 255, 255], [170, 170, 170], [85, 85, 85], [0, 0, 0]]

/-- The 10 ASCII bytes of the `ABORTPRINT` abort marker. -/
def abortMarker : List Nat := [0x41, 0x42, 0x4F, 0x52, 0x54, 0x50, 0x52, 0x49, 0x4E, 0x54]

/-- One update of the sliding `recentBytes` window: push the new byte,
evict the oldest entry once the window exceeds 10 bytes (the
`push` / `shift` pair at the top of `processFirmwareByte`). -/
def pushWindow (w : List Nat) (b : Nat) : List Nat :=
  let w2 := w ++ [b]
  if w2.length > 10 then w2.tail else w2

/-- `decompressRLE` from the source.  A control byte with the high bit set
starts a repeat run of `(control AND 0x7F) + 2` copies of the next byte
(`data[i++] || 0`, hence 0 when the value byte is missing); otherwise a
literal run of `control + 1` bytes is copied while input remains. -/
def decompressRLE : List Nat → List Nat
  | [] => []
  | control :: rest =>
    if control &&& 0x80 ≠ 0 then
      List.replicate ((control &&& 0x7F) + 2) (rest.headD 0) ++ decompressRLE rest.tail
    else
      rest.take (control + 1) ++ decompressRLE (rest.drop (control + 1))
termination_by data => data.length
decreasing_by
  · simp only [List.length_cons, List.length_tail]
    omega
  · simp only [List.length_cons, List.length_drop]
    omega

/-- A decoded image: its dimensions and a flat RGBA raster, modelled as a
function from byte offset to channel value (the `ImageData.data` array of
the source, zero-filled on creation). -/
structure DecodedImage where
  width : Nat
  height : Nat
  pixels : Nat → Nat

/-- Body of the column loop of `decodeTile`: compute the 2bpp color index
of one pixel from the two planar bytes of its row (bit 7 = leftmost
pixel), look it up in the palette and write the 4 RGBA bytes of that pixel
into the raster. -/
def decodeTilePixel (byte1 byte2 : Nat) (imageWidth startX startY row col : Nat)
    (acc : Nat → Nat) : Nat → Nat :=
  let bit := 7 - col
  let colorIndex := ((byte1 >>> bit) &&& 1) ||| (((byte2 >>> bit) &&& 1) <<< 1)
  let color := PALETTE.getD colorIndex [0, 0, 0]
  let x := startX + col
  let y := startY + row
  let pixelOffset := (y * imageWidth + x) * 4
  fun q =>
    if q = pixelOffset then color.getD 0 0
    else if q = pixelOffset + 1 then color.getD 1 0
    else if q = pixelOffset + 2 then color.getD 2 0
    else if q = pixelOffset + 3 then 255
    else acc q

/-- Body of the row loop of `decodeTile`: read the two planar bytes of one
tile row and write the 8 RGBA pixels of that row into the raster. -/
def decodeTileRow (data : List Nat) (offset : Nat) (px : Nat → Nat)
    (imageWidth startX startY row : Nat) : Nat → Nat :=
  let byte1 := data.getD (offset + row * 2) 0
  let byte2 := data.getD (offset + row * 2 + 1) 0
  (List.range 8).foldl (fun acc col =>
    decodeTilePixel byte1 byte2 imageWidth startX startY row col acc) px

/-- `decodeTile` from the source: 8 rows of 2 planar bytes each. -/
def decodeTile (data : List Nat) (offset : Nat) (px : Nat → Nat)
    (imageWidth startX startY : Nat) : Nat → Nat :=
  (List.range 8).foldl (fun acc row =>
    decodeTileRow data offset acc imageWidth startX startY row) px

/-- `renderImage` from the source: 20 tiles per row, 16 bytes per tile,
`totalTiles = floor(len/16)`, `tileRows = ceil(totalTiles/20)`; the
nested tile loops (with their early break at `totalTiles`) plot tile `i`
at tile coordinates `(i mod 20, i div 20)`. -/
def renderImage (data : List Nat) : DecodedImage :=
  let tilesPerRow := 20
  let bytesPerTile := 16
  let totalTiles := data.length / bytesPerTile
  let tileRows := (totalTiles + (tilesPerRow - 1)) / tilesPerRow
  let width := tilesPerRow * 8
  let height := tileRows * 8
  let pixels := (List.range totalTiles).foldl (fun acc tileIndex =>
      decodeTile data (tileIndex * bytesPerTile) acc width
        ((tileIndex % tilesPerRow) * 8) ((tileIndex / tilesPerRow) * 8))
    (fun _ => 0)
  { width := width, height := height, pixels := pixels }

/-- The parser / session state of `GameBoyPrinter` (the fields touched by
`processFirmwareByte`, `processPacket` and the `printerLoop` timeout).
`images` records the buffers rendered on the print-trigger marker. -/
structure PrinterState where
  parserState : ParserState
  currentCommand : Nat
  currentCompression : Nat
  currentLength : Nat
  currentDataIndex : Nat
  currentPacketData : List Nat
  printData : List Nat
  recentBytes : List Nat
  images : List DecodedImage

/-- The parser fields as initialized by the `GameBoyPrinter` constructor. -/
def initState : PrinterState :=
  { parserState := ParserState.WAIT_COMMAND
    currentCommand := 0
    currentCompression := 0
    currentLength := 0
    currentDataIndex := 0
    currentPacketData := []
    printData := []
    recentBytes := []
    images := [] }

/-- `processPacket` from the source: INIT clears the print buffer and the
packet data; DATA appends the (possibly RLE-decompressed) payload to the
print buffer; PRINT and INQUIRY only update status. -/
def processPacket (s : PrinterState) : PrinterState :=
  if s.currentCommand = 0x01 then
    { s with printData := [], currentPacketData := [] }
  else if s.currentCommand = 0x04 then
    if s.currentCompression = 0 then
      { s with printData := s.printData ++ s.currentPacketData }
    else
      { s with printData := s.printData ++ decompressRLE s.currentPacketData }
  else s

/-- `processFirmwareByte` from the source: first the sliding-window
ABORTPRINT check (which clears everything, including the window, and
resets to WAIT_COMMAND), then the parser state machine. -/
def processFirmwareByte (s : PrinterState) (byte : Nat) : PrinterState :=
  let w := pushWindow s.recentBytes byte
  if w = abortMarker then
    { s with printData := [], currentPacketData := [], recentBytes := [],
             parserState := ParserState.WAIT_COMMAND }
  else
    let s1 := { s with recentBytes := w }
    match s.parserState with
    | ParserState.WAIT_START => s1
    | ParserState.WAIT_COMMAND =>
      if byte = 0xFF then
        { s1 with printData := [], currentPacketData := [] }
      else if byte = 0xFE then
        if s1.printData.length > 0 then
          { s1 with images := s1.images ++ [renderImage s1.printData], printData := [] }
        else s1
      else if byte = 0x88 ∨ byte = 0x33 then s1
      else if byte ∈ validCommands then
        let s2 := { s1 with currentCommand := byte,
                            parserState := ParserState.WAIT_COMPRESSION }
        if byte = 0x01 then { s2 with printData := [] } else s2
      else s1
    | ParserState.WAIT_COMPRESSION =>
      if byte ≠ 0x00 ∧ byte ≠ 0x01 then
        { s1 with parserState := ParserState.WAIT_COMMAND }
      else
        { s1 with currentCompression := byte, parserState := ParserState.WAIT_LEN_LOW }
    | ParserState.WAIT_LEN_LOW =>
      { s1 with currentLength := byte, parserState := ParserState.WAIT_LEN_HIGH }
    | ParserState.WAIT_LEN_HIGH =>
      let len := s.currentLength ||| (byte <<< 8)
      let s2 := { s1 with currentLength := len, currentDataIndex := 0,
                          currentPacketData := [] }
      if len > 1000 then
        { s2 with parserState := ParserState.WAIT_COMMAND }
      else if len > 0 then
        { s2 with parserState := ParserState.READ_DATA }
      else
        { processPacket s2 with parserState := ParserState.WAIT_COMMAND }
    | ParserState.READ_DATA =>
      let s2 := { s1 with currentPacketData := s1.currentPacketData ++ [byte],
                          currentDataIndex := s1.currentDataIndex + 1 }
      if s2.currentDataIndex ≥ s2.currentLength then
        { processPacket s2 with parserState := ParserState.WAIT_COMMAND }
      else s2

/-- Feeding a sequence of bytes through the parser, one at a time, in
arrival order (the per-byte loop of `printerLoop`). -/
def feedBytes (s : PrinterState) (bytes : List Nat) : PrinterState :=
  bytes.foldl processFirmwareByte s

/-- The stale-data check of `printerLoop`: if the print buffer is
non-empty, a last-data timestamp exists and more than `PRINT_TIMEOUT_MS`
(2000 ms) have elapsed, discard the buffer and reset the parser. -/
def printTimeoutReset (s : PrinterState) (lastDataTime now : Nat) : PrinterState :=
  if s.printData.length > 0 ∧ lastDataTime > 0 then
    if now - lastDataTime > 2000 then
      { s with printData := [], parserState := ParserState.WAIT_COMMAND,
               currentPacketData := [] }
    else s
  else s

/-- A concrete parser configuration: mid-packet (compression byte expected
for a `Data` command) with a non-empty print buffer.  Used as a test
input. -/
def midPacketState : PrinterState :=
  { parserState := ParserState.WAIT_COMPRESSION
    currentCommand := 0x04
    currentCompression := 0
    currentLength := 0
    currentDataIndex := 0
    currentPacketData := []
    printData := [0x11]
    recentBytes := [0x04]
    images := [] }

/-- A concrete parser configuration: mid-payload (2 of 10 declared `Data`
payload bytes read) with a non-empty print buffer.  Used as a test
input. -/
def midPayloadState : PrinterState :=
  { parserState := ParserState.READ_DATA
    currentCommand := 0x04
    currentCompression := 0
    currentLength := 10
    currentDataIndex := 2
    currentPacketData := [0xAB, 0xCD]
    printData := [0x01, 0x02, 0x03]
    recentBytes := [0x04, 0x00, 0x0A, 0x00, 0xAB, 0xCD]
    images := [] }

/-- A concrete parser configuration: idle in WAIT_COMMAND with a non-empty
print buffer.  Used as a test input. -/
def bufferedState : PrinterState :=
  { initState with printData := [0x09, 0x08] }

/-- A concrete parser configuration: waiting for the high length byte of a
`Data` packet whose low length byte was 0xD0, so that a following high
byte 0x07 decodes the little-endian length 2000.  Used as a test input. -/
def lenHighState : PrinterState :=
  { initState with parserState := ParserState.WAIT_LEN_HIGH
                   currentCommand := 0x04
                   currentLength := 0xD0 }

/-! ### Helper lemmas about the sliding marker window -/

theorem pushWindow_concat (w : List Nat) (b : Nat) : ∃ t, pushWindow w b = t ++ [b] := by
  simp only [pushWindow]
  split
  · next hlen =>
    cases w with
    | nil => simp at hlen
    | cons a w2 => exact ⟨w2, by simp⟩
  · exact ⟨w, rfl⟩

theorem pushWindow_ne_abortMarker (w : List Nat) (b : Nat) (h : b ≠ 0x54) :
    ¬ pushWindow w b = abortMarker := by
  obtain ⟨t, ht⟩ := pushWindow_concat w b
  intro hEq
  have h1 : (t ++ [b]).getLast? = some b := List.getLast?_concat t
  rw [← ht, hEq] at h1
  have h2 : abortMarker.getLast? = some 0x54 := by decide
  exact h (Option.some.inj (h1.symm.trans h2))

theorem pushWindow_pushWindow_concat (w : List Nat) (a b : Nat) :
    ∃ t, pushWindow (pushWindow w a) b = t ++ [a, b] := by
  obtain ⟨t, ht⟩ := pushWindow_concat w a
  rw [ht]
  simp only [pushWindow]
  split
  · next hlen =>
    cases t with
    | nil => simp at hlen
    | cons x t2 => exact ⟨t2, by simp⟩
  · exact ⟨t, by simp⟩

theorem pushWindow_RT_ne_abortMarker (w : List Nat) :
    ¬ pushWindow (pushWindow w 0x52) 0x54 = abortMarker := by
  obtain ⟨t, ht⟩ := pushWindow_pushWindow_concat w 0x52 0x54
  intro hEq
  rw [ht] at hEq
  have h1 : (t ++ [0x52, 0x54]).dropLast = t ++ [0x52] := by
    have e : t ++ [0x52, 0x54] = (t ++ [0x52]) ++ [0x54] := by simp
    rw [e, List.dropLast_concat]
  have h2 : (t ++ [0x52]).getLast? = some 0x52 := List.getLast?_concat t
  rw [← h1, hEq] at h2
  have h3 : abortMarker.dropLast.getLast? = some 0x4E := by decide
  exact absurd (Option.some.inj (h2.symm.trans h3)) (by decide)

/-- Pushing the whole 10-byte abort marker through the window, starting
from any window respecting the 10-byte capacity invariant, leaves the
window equal to the marker. -/
theorem foldl_pushWindow_abortMarker (w : List Nat) (h : w.length ≤ 10) :
    abortMarker.foldl pushWindow w = abortMarker := by
  match w with
  | [] => decide
  | [a1] => simp [abortMarker, pushWindow]
  | [a1, a2] => simp [abortMarker, pushWindow]
  | [a1, a2, a3] => simp [abortMarker, pushWindow]
  | [a1, a2, a3, a4] => simp [abortMarker, pushWindow]
  | [a1, a2, a3, a4, a5] => simp [abortMarker, pushWindow]
  | [a1, a2, a3, a4, a5, a6] => simp [abortMarker, pushWindow]
  | [a1, a2, a3, a4, a5, a6, a7] => simp [abortMarker, pushWindow]
  | [a1, a2, a3, a4, a5, a6, a7, a8] => simp [abortMarker, pushWindow]
  | [a1, a2, a3, a4, a5, a6, a7, a8, a9] => simp [abortMarker, pushWindow]
  | [a1, a2, a3, a4, a5, a6, a7, a8, a9, a10] => simp [abortMarker, pushWindow]
  | a1 :: a2 :: a3 :: a4 :: a5 :: a6 :: a7 :: a8 :: a9 :: a10 :: a11 :: t =>
    simp at h

/-! ### Helper lemmas about single parser steps -/

theorem processPacket_recentBytes (s : PrinterState) :
    (processPacket s).recentBytes = s.recentBytes := by
  simp only [processPacket]
  split_ifs <;> rfl

theorem step_abort (s : PrinterState) (b : Nat)
    (h : pushWindow s.recentBytes b = abortMarker) :
    processFirmwareByte s b =
      { s with printData := [], currentPacketData := [], recentBytes := [],
               parserState := ParserState.WAIT_COMMAND } := by
  simp only [processFirmwareByte]
  rw [if_pos h]

theorem step_recentBytes (s : PrinterState) (b : Nat)
    (h : ¬ pushWindow s.recentBytes b = abortMarker) :
    (processFirmwareByte s b).recentBytes = pushWindow s.recentBytes b := by
  simp only [processFirmwareByte]
  rw [if_neg h]
  split <;>
    first
      | rfl
      | (split_ifs <;> simp [processPacket_recentBytes])

/-- Accepting the INIT command byte in WAIT_COMMAND records the command,
moves to WAIT_COMPRESSION, pushes the window, and clears the print buffer
at once. -/
theorem step_init_cmd (s : PrinterState) (h : s.parserState = ParserState.WAIT_COMMAND) :
    processFirmwareByte s 0x01 =
      { s with recentBytes := pushWindow s.recentBytes 0x01,
               currentCommand := 0x01,
               parserState := ParserState.WAIT_COMPRESSION,
               printData := [] } := by
  have hnab := pushWindow_ne_abortMarker s.recentBytes 0x01 (by decide)
  simp [processFirmwareByte, hnab, h, validCommands]

/-- An invalid compression byte (neither 0x00 nor 0x01) in
WAIT_COMPRESSION resets the parser to WAIT_COMMAND; nothing is dispatched
(the print buffer can only have been cleared by a coinciding abort-marker
match, never extended, and no image is rendered). -/
theorem step_compression_invalid (s : PrinterState) (b : Nat)
    (h : s.parserState = ParserState.WAIT_COMPRESSION)
    (hb0 : b ≠ 0x00) (hb1 : b ≠ 0x01) :
    (processFirmwareByte s b).parserState = ParserState.WAIT_COMMAND ∧
    (processFirmwareByte s b).printData <+: s.printData ∧
    (processFirmwareByte s b).images = s.images := by
  simp only [processFirmwareByte]
  split
  · exact ⟨rfl, List.nil_prefix, rfl⟩
  · simp only [h]
    rw [if_pos ⟨hb0, hb1⟩]
    exact ⟨rfl, List.prefix_refl _, rfl⟩

/-- A decoded length above the 1000-byte sanity ceiling in WAIT_LEN_HIGH
resets the parser to WAIT_COMMAND with the pending packet data cleared;
nothing is dispatched. -/
theorem step_len_high_oversized (s : PrinterState) (b : Nat)
    (h : s.parserState = ParserState.WAIT_LEN_HIGH)
    (hlen : s.currentLength ||| (b <<< 8) > 1000) :
    (processFirmwareByte s b).parserState = ParserState.WAIT_COMMAND ∧
    (processFirmwareByte s b).currentPacketData = [] ∧
    (processFirmwareByte s b).printData <+: s.printData ∧
    (processFirmwareByte s b).images = s.images := by
  simp only [processFirmwareByte]
  split
  · exact ⟨rfl, rfl, List.nil_prefix, rfl⟩
  · simp only [h]
    exact ⟨trivial, trivial, List.prefix_refl _, trivial⟩


/-- No transition of `processFirmwareByte` ever produces the WAIT_START
state. -/
theorem step_preserves_not_WAIT_START (s : PrinterState) (b : Nat)
    (h : ¬ s.parserState = ParserState.WAIT_START) :
    ¬ (processFirmwareByte s b).parserState = ParserState.WAIT_START := by
  simp only [processFirmwareByte]
  split
  · simp
  · split <;> (try split_ifs) <;> simp_all

/-- Feeding the 10 bytes of the ABORTPRINT marker, from any parser state
whose sliding window respects its 10-byte capacity invariant, fires the
abort handler on the final byte: parser reset to WAIT_COMMAND, print
buffer, pending packet data and marker window all cleared. -/
theorem feedAbort_resets (s : PrinterState) (h : s.recentBytes.length ≤ 10) :
    (feedBytes s abortMarker).parserState = ParserState.WAIT_COMMAND ∧
    (feedBytes s abortMarker).printData = [] ∧
    (feedBytes s abortMarker).currentPacketData = [] ∧
    (feedBytes s abortMarker).recentBytes = [] := by
  set s1 := processFirmwareByte s 0x41 with hs1
  set s2 := processFirmwareByte s1 0x42 with hs2
  set s3 := processFirmwareByte s2 0x4F with hs3
  set s4 := processFirmwareByte s3 0x52 with hs4
  set s5 := processFirmwareByte s4 0x54 with hs5
  set s6 := processFirmwareByte s5 0x50 with hs6
  set s7 := processFirmwareByte s6 0x52 with hs7
  set s8 := processFirmwareByte s7 0x49 with hs8
  set s9 := processFirmwareByte s8 0x4E with hs9
  have r1 : s1.recentBytes = pushWindow s.recentBytes 0x41 :=
    step_recentBytes _ _ (pushWindow_ne_abortMarker _ _ (by decide))
  have r2 : s2.recentBytes = pushWindow s1.recentBytes 0x42 :=
    step_recentBytes _ _ (pushWindow_ne_abortMarker _ _ (by decide))
  have r3 : s3.recentBytes = pushWindow s2.recentBytes 0x4F :=
    step_recentBytes _ _ (pushWindow_ne_abortMarker _ _ (by decide))
  have r4 : s4.recentBytes = pushWindow s3.recentBytes 0x52 :=
    step_recentBytes _ _ (pushWindow_ne_abortMarker _ _ (by decide))
  have r5 : s5.recentBytes = pushWindow s4.recentBytes 0x54 :=
    step_recentBytes _ _ (by rw [r4]; exact pushWindow_RT_ne_abortMarker _)
  have r6 : s6.recentBytes = pushWindow s5.recentBytes 0x50 :=
    step_recentBytes _ _ (pushWindow_ne_abortMarker _ _ (by decide))
  have r7 : s7.recentBytes = pushWindow s6.recentBytes 0x52 :=
    step_recentBytes _ _ (pushWindow_ne_abortMarker _ _ (by decide))
  have r8 : s8.recentBytes = pushWindow s7.recentBytes 0x49 :=
    step_recentBytes _ _ (pushWindow_ne_abortMarker _ _ (by decide))
  have r9 : s9.recentBytes = pushWindow s8.recentBytes 0x4E :=
    step_recentBytes _ _ (pushWindow_ne_abortMarker _ _ (by decide))
  have rAll : pushWindow s9.recentBytes 0x54 = abortMarker := by
    rw [r9, r8, r7, r6, r5, r4, r3, r2, r1]
    have h10 := foldl_pushWindow_abortMarker s.recentBytes h
    simpa only [abortMarker, List.foldl_cons, List.foldl_nil] using h10
  have hfinal := step_abort s9 0x54 rAll
  have e : feedBytes s abortMarker = processFirmwareByte s9 0x54 := by
    rw [hs9, hs8, hs7, hs6, hs5, hs4, hs3, hs2, hs1]
    simp only [feedBytes, abortMarker, List.foldl_cons, List.foldl_nil]
  rw [e, hfinal]
  exact ⟨rfl, rfl, rfl, rfl⟩

/-! ### C1: reset triggers -/

/-- C1 counterexample: from `WAIT_COMPRESSION` with a non-empty print
buffer, feeding the stream-start marker byte 0xFF does NOT leave an empty
PrintBuffer (the byte is taken as an invalid compression flag: the parser
resets, but the buffer is kept), refuting the claim that feeding 0xFF from
any parser state yields WaitCommand with an empty PrintBuffer. -/
theorem c1_counterexample :
    (processFirmwareByte midPacketState 0xFF).parserState = ParserState.WAIT_COMMAND ∧
    ¬ (processFirmwareByte midPacketState 0xFF).printData = [] := by
  decide

/-- C1 (amended): the ABORTPRINT sequence resets from any parser state
(window within its 10-byte capacity invariant); the stream-start marker
0xFF and a complete Init packet reset when fed in WaitCommand (in other
states those bytes are consumed as packet fields or payload); the idle
timeout resets when the print buffer is non-empty and a last-data
timestamp exists.  Each trigger leaves WaitCommand with an empty
PrintBuffer. -/
theorem c1_reset_triggers :
    (∀ s : PrinterState, s.recentBytes.length ≤ 10 →
      (feedBytes s abortMarker).parserState = ParserState.WAIT_COMMAND ∧
      (feedBytes s abortMarker).printData = []) ∧
    (∀ s : PrinterState, s.parserState = ParserState.WAIT_COMMAND →
      (processFirmwareByte s 0xFF).parserState = ParserState.WAIT_COMMAND ∧
      (processFirmwareByte s 0xFF).printData = []) ∧
    (∀ s : PrinterState, s.parserState = ParserState.WAIT_COMMAND →
      (feedBytes s [0x01, 0x00, 0x00, 0x00]).parserState = ParserState.WAIT_COMMAND ∧
      (feedBytes s [0x01, 0x00, 0x00, 0x00]).printData = []) ∧
    (∀ (s : PrinterState) (lastDataTime now : Nat),
      s.printData ≠ [] → lastDataTime > 0 → now - lastDataTime > 2000 →
      (printTimeoutReset s lastDataTime now).parserState = ParserState.WAIT_COMMAND ∧
      (printTimeoutReset s lastDataTime now).printData = []) := by
  refine ⟨fun s hw => ⟨(feedAbort_resets s hw).1, (feedAbort_resets s hw).2.1⟩, ?_, ?_, ?_⟩
  · intro s h
    simp only [processFirmwareByte]
    split
    · exact ⟨rfl, rfl⟩
    · simp [h]
  · intro s h
    have e1 : feedBytes s [0x01, 0x00, 0x00, 0x00] =
        feedBytes (processFirmwareByte s 0x01) [0x00, 0x00, 0x00] := by
      simp only [feedBytes, List.foldl_cons]
    rw [e1, step_init_cmd s h]
    simp only [feedBytes, List.foldl_cons, List.foldl_nil]
    simp +decide [processFirmwareByte, processPacket, pushWindow_ne_abortMarker,
      Nat.zero_shiftLeft]
  · intro s lastDataTime now h1 h2 h3
    unfold printTimeoutReset
    rw [if_pos ⟨List.length_pos.mpr h1, h2⟩, if_pos h3]
    exact ⟨rfl, rfl⟩

/-- Witness for the amended C1, instantiating each trigger at a concrete
buffered state. -/
theorem c1_witness :
    ((feedBytes bufferedState abortMarker).parserState = ParserState.WAIT_COMMAND ∧
     (feedBytes bufferedState abortMarker).printData = []) ∧
    ((processFirmwareByte bufferedState 0xFF).parserState = ParserState.WAIT_COMMAND ∧
     (processFirmwareByte bufferedState 0xFF).printData = []) ∧
    ((feedBytes bufferedState [0x01, 0x00, 0x00, 0x00]).parserState = ParserState.WAIT_COMMAND ∧
     (feedBytes bufferedState [0x01, 0x00, 0x00, 0x00]).printData = []) ∧
    ((printTimeoutReset bufferedState 1 3000).parserState = ParserState.WAIT_COMMAND ∧
     (printTimeoutReset bufferedState 1 3000).printData = []) :=
  ⟨c1_reset_triggers.1 bufferedState (by decide),
   c1_reset_triggers.2.1 bufferedState (by decide),
   c1_reset_triggers.2.2.1 bufferedState (by decide),
   c1_reset_triggers.2.2.2 bufferedState 1 3000 (by decide) (by decide) (by decide)⟩

/-! ### C3: abort mid-payload -/

/-- C3: from any parser configuration in ReadData with a partially read
Data packet (window within its 10-byte capacity invariant), feeding the 10
ASCII bytes of ABORTPRINT clears the PrintBuffer and the pending packet
data, returns the parser to WaitCommand regardless of how many payload
bytes remained, and clears the sliding marker window. -/
theorem c3_abort_mid_payload (s : PrinterState)
    (_hstate : s.parserState = ParserState.READ_DATA)
    (_hcmd : s.currentCommand = 0x04)
    (_hmidway : s.currentDataIndex < s.currentLength)
    (hwin : s.recentBytes.length ≤ 10) :
    (feedBytes s abortMarker).parserState = ParserState.WAIT_COMMAND ∧
    (feedBytes s abortMarker).printData = [] ∧
    (feedBytes s abortMarker).currentPacketData = [] ∧
    (feedBytes s abortMarker).recentBytes = [] :=
  feedAbort_resets s hwin

/-- Witness for C3 at a concrete mid-payload configuration (2 of 10
declared payload bytes read). -/
theorem c3_witness :
    (feedBytes midPayloadState abortMarker).parserState = ParserState.WAIT_COMMAND ∧
    (feedBytes midPayloadState abortMarker).printData = [] ∧
    (feedBytes midPayloadState abortMarker).currentPacketData = [] ∧
    (feedBytes midPayloadState abortMarker).recentBytes = [] :=
  c3_abort_mid_payload midPayloadState (by decide) (by decide) (by decide) (by decide)

/-! ### C4: desynchronization recovery -/

/-- C4: an invalid compression byte in WaitCompression, or a decoded
little-endian length above 1000 in WaitLengthHigh, resets the parser to
WaitCommand and discards the in-flight packet: nothing is dispatched (the
print buffer is never extended — it stays or becomes empty, so it remains
a prefix of the old buffer — and no image is rendered); in the oversized
case the parser never enters ReadData and the pending packet data is
cleared. -/
theorem c4_desync_recovery :
    (∀ (s : PrinterState) (b : Nat), s.parserState = ParserState.WAIT_COMPRESSION →
      b ≠ 0x00 → b ≠ 0x01 →
      (processFirmwareByte s b).parserState = ParserState.WAIT_COMMAND ∧
      (processFirmwareByte s b).printData <+: s.printData ∧
      (processFirmwareByte s b).images = s.images) ∧
    (∀ (s : PrinterState) (b : Nat), s.parserState = ParserState.WAIT_LEN_HIGH →
      s.currentLength ||| (b <<< 8) > 1000 →
      (processFirmwareByte s b).parserState = ParserState.WAIT_COMMAND ∧
      (processFirmwareByte s b).currentPacketData = [] ∧
      (processFirmwareByte s b).printData <+: s.printData ∧
      (processFirmwareByte s b).images = s.images) :=
  ⟨fun s b h hb0 hb1 => step_compression_invalid s b h hb0 hb1,
   fun s b h hlen => step_len_high_oversized s b h hlen⟩

/-- Witness for C4: an invalid compression byte 0x37, and the length field
decoding to 2000 (low 0xD0, high 0x07). -/
theorem c4_witness :
    ((processFirmwareByte midPacketState 0x37).parserState = ParserState.WAIT_COMMAND ∧
     (processFirmwareByte midPacketState 0x37).printData <+: midPacketState.printData ∧
     (processFirmwareByte midPacketState 0x37).images = midPacketState.images) ∧
    ((processFirmwareByte lenHighState 0x07).parserState = ParserState.WAIT_COMMAND ∧
     (processFirmwareByte lenHighState 0x07).currentPacketData = [] ∧
     (processFirmwareByte lenHighState 0x07).printData <+: lenHighState.printData ∧
     (processFirmwareByte lenHighState 0x07).images = lenHighState.images) :=
  ⟨c4_desync_recovery.1 midPacketState 0x37 (by decide) (by decide) (by decide),
   c4_desync_recovery.2 lenHighState 0x07 (by decide) (by decide)⟩

/-! ### C5: packet assembly -/

/-- C5: starting in WaitCommand with an empty PrintBuffer, feeding the
seven bytes of a raw Data packet of length 3 leaves PrintBuffer equal to
the payload and the parser back in WaitCommand. -/
theorem c5_packet_assembly (s : PrinterState)
    (h1 : s.parserState = ParserState.WAIT_COMMAND) (h2 : s.printData = []) :
    (feedBytes s [0x04, 0x00, 0x03, 0x00, 0x11, 0x22, 0x33]).printData
      = [0x11, 0x22, 0x33] ∧
    (feedBytes s [0x04, 0x00, 0x03, 0x00, 0x11, 0x22, 0x33]).parserState
      = ParserState.WAIT_COMMAND := by
  simp only [feedBytes, List.foldl_cons, List.foldl_nil]
  simp +decide [processFirmwareByte, processPacket, pushWindow_ne_abortMarker,
    validCommands, h1, h2, Nat.zero_shiftLeft]

/-- Witness for C5 at the freshly constructed parser state. -/
theorem c5_witness :
    (feedBytes initState [0x04, 0x00, 0x03, 0x00, 0x11, 0x22, 0x33]).printData
      = [0x11, 0x22, 0x33] ∧
    (feedBytes initState [0x04, 0x00, 0x03, 0x00, 0x11, 0x22, 0x33]).parserState
      = ParserState.WAIT_COMMAND :=
  c5_packet_assembly initState rfl rfl

/-! ### C9: INIT clears the buffer before the packet completes -/

/-- C9: accepting the Init command byte 0x01 in WaitCommand clears the
PrintBuffer immediately (the parser is then only in WaitCompression); an
Init command byte followed by a desynchronizing byte (an invalid
compression flag) still leaves PrintBuffer empty although the packet is
never dispatched (no image rendered). -/
theorem c9_init_clears_immediately :
    (∀ s : PrinterState, s.parserState = ParserState.WAIT_COMMAND →
      (processFirmwareByte s 0x01).printData = [] ∧
      (processFirmwareByte s 0x01).parserState = ParserState.WAIT_COMPRESSION) ∧
    (∀ (s : PrinterState) (b : Nat), s.parserState = ParserState.WAIT_COMMAND →
      b ≠ 0x00 → b ≠ 0x01 →
      (feedBytes s [0x01, b]).printData = [] ∧
      (feedBytes s [0x01, b]).parserState = ParserState.WAIT_COMMAND ∧
      (feedBytes s [0x01, b]).images = s.images) := by
  constructor
  · intro s h
    rw [step_init_cmd s h]
    exact ⟨rfl, rfl⟩
  · intro s b h hb0 hb1
    have e1 : feedBytes s [0x01, b] = processFirmwareByte (processFirmwareByte s 0x01) b := by
      simp only [feedBytes, List.foldl_cons, List.foldl_nil]
    rw [e1, step_init_cmd s h]
    set R : PrinterState :=
      { s with recentBytes := pushWindow s.recentBytes 0x01,
               currentCommand := 0x01,
               parserState := ParserState.WAIT_COMPRESSION,
               printData := ([] : List Nat) } with hR
    obtain ⟨hstate, hpre, him⟩ := step_compression_invalid R b (by rw [hR]) hb0 hb1
    have hRp : R.printData = [] := by rw [hR]
    have hRi : R.images = s.images := by rw [hR]
    exact ⟨List.prefix_nil.mp (hRp ▸ hpre), hstate, him.trans hRi⟩

/-- Witness for C9 at a concrete buffered state, with 0xFF as the
desynchronizing byte. -/
theorem c9_witness :
    ((processFirmwareByte bufferedState 0x01).printData = [] ∧
     (processFirmwareByte bufferedState 0x01).parserState = ParserState.WAIT_COMPRESSION) ∧
    ((feedBytes bufferedState [0x01, 0xFF]).printData = [] ∧
     (feedBytes bufferedState [0x01, 0xFF]).parserState = ParserState.WAIT_COMMAND ∧
     (feedBytes bufferedState [0x01, 0xFF]).images = bufferedState.images) :=
  ⟨c9_init_clears_immediately.1 bufferedState (by decide),
   c9_init_clears_immediately.2 bufferedState 0xFF (by decide) (by decide) (by decide)⟩

/-! ### C10: WAIT_START is unreachable -/

/-- C10: the parser is initialized in WaitCommand and no transition ever
produces WaitStart, so after feeding any byte sequence from the initial
state the parser is in one of the five other states. -/
theorem c10_wait_start_unreachable :
    initState.parserState = ParserState.WAIT_COMMAND ∧
    ∀ bytes : List Nat,
      (feedBytes initState bytes).parserState = ParserState.WAIT_COMMAND ∨
      (feedBytes initState bytes).parserState = ParserState.WAIT_COMPRESSION ∨
      (feedBytes initState bytes).parserState = ParserState.WAIT_LEN_LOW ∨
      (feedBytes initState bytes).parserState = ParserState.WAIT_LEN_HIGH ∨
      (feedBytes initState bytes).parserState = ParserState.READ_DATA := by
  constructor
  · rfl
  · intro bytes
    have main : ∀ (bs : List Nat) (s : PrinterState),
        ¬ s.parserState = ParserState.WAIT_START →
        ¬ (feedBytes s bs).parserState = ParserState.WAIT_START := by
      intro bs
      induction bs with
      | nil => intro s hs; exact hs
      | cons b rest ih =>
        intro s hs
        have e : feedBytes s (b :: rest) = feedBytes (processFirmwareByte s b) rest := by
          simp only [feedBytes, List.foldl_cons]
        rw [e]
        exact ih _ (step_preserves_not_WAIT_START s b hs)
    have hne := main bytes initState (by decide)
    cases hfin : (feedBytes initState bytes).parserState
    case WAIT_START => exact absurd hfin hne
    case WAIT_COMMAND => exact Or.inl rfl
    case WAIT_COMPRESSION => exact Or.inr (Or.inl rfl)
    case WAIT_LEN_LOW => exact Or.inr (Or.inr (Or.inl rfl))
    case WAIT_LEN_HIGH => exact Or.inr (Or.inr (Or.inr (Or.inl rfl)))
    case READ_DATA => exact Or.inr (Or.inr (Or.inr (Or.inr rfl)))

/-! ### C2: malformed RLE input -/

/-- C2 counterexample: for the input consisting of the single repeat
control byte 0x83 (value byte missing), the decompressor does not emit
nothing — it emits the full 5-byte run with value 0 substituted for the
missing byte (`data[i++] || 0`), refuting the claim that a repeat run with
a missing value byte stops early emitting nothing. -/
theorem c2_counterexample :
    decompressRLE [0x83] = [0, 0, 0, 0, 0] ∧ decompressRLE [0x83] ≠ ([] : List Nat) := by
  have h1 : decompressRLE [0x83] = [0, 0, 0, 0, 0] := by
    simp [decompressRLE]
    decide
  exact ⟨h1, by rw [h1]; decide⟩

/-- C2 (amended): a literal run whose declared count extends past the end
of the input stops early, emitting only the available bytes; a repeat
control byte that is the final input byte does not read out of bounds, but
emits its full `(c AND 0x7F) + 2`-byte run with value 0 substituted for the
missing value byte. -/
theorem c2_malformed_rle :
    (∀ (c : Nat) (xs : List Nat), c &&& 0x80 = 0 → xs.length ≤ c →
      decompressRLE (c :: xs) = xs) ∧
    (∀ c : Nat, c &&& 0x80 ≠ 0 →
      decompressRLE [c] = List.replicate ((c &&& 0x7F) + 2) 0) := by
  constructor
  · intro c xs hc hlen
    rw [decompressRLE]
    rw [if_neg (by simp [hc])]
    rw [List.take_of_length_le (by omega), List.drop_eq_nil_of_le (by omega)]
    simp [decompressRLE]
  · intro c hc
    rw [decompressRLE]
    rw [if_pos hc]
    simp [decompressRLE]

/-- Witness for the amended C2: a truncated literal run and a dangling
repeat control byte. -/
theorem c2_witness :
    decompressRLE [0x05, 0x0A, 0x0B] = [0x0A, 0x0B] ∧
    decompressRLE [0x83] = List.replicate ((0x83 &&& 0x7F) + 2) 0 :=
  ⟨c2_malformed_rle.1 0x05 [0x0A, 0x0B] (by decide) (by decide),
   c2_malformed_rle.2 0x83 (by decide)⟩

/-! ### C6: the RLE scheme -/

/-- C6: `decompressRLE` implements the specified scheme — a control byte
with the high bit set emits the next byte repeated `(c AND 0x7F) + 2`
times, otherwise the next `c + 1` bytes are copied verbatim, until the
input is exhausted; in particular `[0x02, 0xAA, 0xBB, 0xCC]` decompresses
to `[0xAA, 0xBB, 0xCC]` and `[0x83, 0x7F]` to five repetitions of 0x7F. -/
theorem c6_rle_scheme :
    decompressRLE [0x02, 0xAA, 0xBB, 0xCC] = [0xAA, 0xBB, 0xCC] ∧
    decompressRLE [0x83, 0x7F] = List.replicate 5 0x7F ∧
    (∀ (k v : Nat) (rest : List Nat), k < 0x80 →
      decompressRLE ((0x80 + k) :: v :: rest) =
        List.replicate (k + 2) v ++ decompressRLE rest) ∧
    (∀ (c : Nat) (rest : List Nat), c &&& 0x80 = 0 → c + 1 ≤ rest.length →
      decompressRLE (c :: rest) =
        rest.take (c + 1) ++ decompressRLE (rest.drop (c + 1))) := by
  have hb : ∀ j, j < 128 → ((128 + j) &&& 128 ≠ 0 ∧ (128 + j) &&& 127 = j) := by decide
  refine ⟨?_, ?_, ?_, ?_⟩
  · simp [decompressRLE]
    decide
  · simp [decompressRLE]
    decide
  · intro k v rest hk
    rw [decompressRLE]
    rw [if_pos (hb k hk).1]
    simp [(hb k hk).2]
  · intro c rest hc hlen
    rw [decompressRLE]
    rw [if_neg (by simp [hc])]

/-- Witness for C6's general clauses: a repeat run `[0x83, 0x07]` and a
literal run `[0x01, 0x05, 0x06, 0x07]`. -/
theorem c6_witness :
    decompressRLE ((0x80 + 3) :: 0x07 :: []) =
      List.replicate (3 + 2) 0x07 ++ decompressRLE [] ∧
    decompressRLE (0x01 :: [0x05, 0x06, 0x07]) =
      [0x05, 0x06, 0x07].take 2 ++ decompressRLE ([0x05, 0x06, 0x07].drop 2) :=
  ⟨c6_rle_scheme.2.2.1 3 0x07 [] (by decide),
   c6_rle_scheme.2.2.2 0x01 [0x05, 0x06, 0x07] (by decide) (by decide)⟩

/-! ### C7: render dimensions and leftover-byte truncation -/

theorem getD_take_of_lt (l : List Nat) (n i : Nat) (h : i < n) :
    (l.take n).getD i 0 = l.getD i 0 := by
  simp [List.getD_eq_getElem?_getD, List.getElem?_take_of_lt h]

/-- `decodeTileRow` only reads the two planar bytes of its row. -/
theorem decodeTileRow_congr (d1 d2 : List Nat) (offset : Nat) (px : Nat → Nat)
    (w sx sy row : Nat)
    (h1 : d1.getD (offset + row * 2) 0 = d2.getD (offset + row * 2) 0)
    (h2 : d1.getD (offset + row * 2 + 1) 0 = d2.getD (offset + row * 2 + 1) 0) :
    decodeTileRow d1 offset px w sx sy row = decodeTileRow d2 offset px w sx sy row := by
  unfold decodeTileRow
  rw [h1, h2]

/-- `decodeTile` only reads the 16 bytes of its tile. -/
theorem decodeTile_congr (d1 d2 : List Nat) (offset : Nat) (px : Nat → Nat)
    (w sx sy : Nat)
    (h : ∀ j, j < 16 → d1.getD (offset + j) 0 = d2.getD (offset + j) 0) :
    decodeTile d1 offset px w sx sy = decodeTile d2 offset px w sx sy := by
  unfold decodeTile
  apply List.foldl_ext
  intro acc row hrow
  have hr : row < 8 := List.mem_range.mp hrow
  have e1 := h (row * 2) (by omega)
  have e2 := h (row * 2 + 1) (by omega)
  rw [← Nat.add_assoc] at e2
  exact decodeTileRow_congr d1 d2 offset acc w sx sy row e1 e2

/-- C7: the rendered image is always 20 tiles (160 pixels) wide, its
height is `ceil(floor(len/16) / 20)` tile rows of 8 pixels, and leftover
bytes that do not complete a 16-byte tile contribute nothing: rendering
the buffer truncated to whole tiles yields the same image. -/
theorem c7_render_dimensions (data : List Nat) :
    (renderImage data).width = 160 ∧
    (renderImage data).height = ((data.length / 16 + 19) / 20) * 8 ∧
    renderImage data = renderImage (data.take (data.length / 16 * 16)) := by
  refine ⟨rfl, rfl, ?_⟩
  have htiles : (data.take (data.length / 16 * 16)).length / 16 = data.length / 16 := by
    rw [List.length_take]
    have hle : data.length / 16 * 16 ≤ data.length := Nat.div_mul_le_self _ _
    rw [min_eq_left hle]
    exact Nat.mul_div_cancel _ (by norm_num)
  simp only [renderImage, htiles, DecodedImage.mk.injEq]
  refine ⟨trivial, trivial, ?_⟩
  apply List.foldl_ext
  intro acc i hi
  have hit : i < data.length / 16 := List.mem_range.mp hi
  apply decodeTile_congr
  intro j hj
  have hlt : i * 16 + j < data.length / 16 * 16 := by omega
  exact (getD_take_of_lt data _ _ hlt).symm

/-! ### C8: tile decoding -/

/-- Reading one of the three RGB channels of a pixel outside the 4-byte
RGBA cell written by `decodeTilePixel` falls through to the underlying
raster. -/
theorem pixelRead_miss (b1 b2 row col : Nat) (acc : Nat → Nat) (q : Nat)
    (h : q < (row * 160 + col) * 4 ∨ (row * 160 + col) * 4 + 4 ≤ q) :
    decodeTilePixel b1 b2 160 0 0 row col acc q = acc q := by
  simp only [decodeTilePixel]
  split_ifs <;> first | rfl | omega

/-- Reading the RGB channels of the very pixel written by
`decodeTilePixel` returns the palette entry of its 2bpp color index. -/
theorem pixelRead_hit (b1 b2 row col : Nat) (acc : Nat → Nat) :
    decodeTilePixel b1 b2 160 0 0 row col acc ((row * 160 + col) * 4) =
      (PALETTE.getD (((b1 >>> (7 - col)) &&& 1) ||| (((b2 >>> (7 - col)) &&& 1) <<< 1))
        [0, 0, 0]).getD 0 0 ∧
    decodeTilePixel b1 b2 160 0 0 row col acc ((row * 160 + col) * 4 + 1) =
      (PALETTE.getD (((b1 >>> (7 - col)) &&& 1) ||| (((b2 >>> (7 - col)) &&& 1) <<< 1))
        [0, 0, 0]).getD 1 0 ∧
    decodeTilePixel b1 b2 160 0 0 row col acc ((row * 160 + col) * 4 + 2) =
      (PALETTE.getD (((b1 >>> (7 - col)) &&& 1) ||| (((b2 >>> (7 - col)) &&& 1) <<< 1))
        [0, 0, 0]).getD 2 0 := by
  simp only [decodeTilePixel]
  refine ⟨?_, ?_, ?_⟩ <;> split_ifs <;> first | rfl | omega

/-- A fold of pixel writes over columns away from `q` leaves `q` alone. -/
theorem foldCols_miss (b1 b2 row : Nat) (cs : List Nat) (acc : Nat → Nat) (q : Nat)
    (h : ∀ c ∈ cs, q < (row * 160 + c) * 4 ∨ (row * 160 + c) * 4 + 4 ≤ q) :
    (cs.foldl (fun a c => decodeTilePixel b1 b2 160 0 0 row c a) acc) q = acc q := by
  induction cs generalizing acc with
  | nil => rfl
  | cons c cs ih =>
    simp only [List.foldl_cons]
    rw [ih _ (fun c2 hc2 => h c2 (List.mem_cons_of_mem _ hc2))]
    exact pixelRead_miss b1 b2 row c acc q (h c (List.mem_cons_self _ _))

/-- A whole row of pixel writes leaves offsets outside its 32-byte RGBA
span alone. -/
theorem rowRead_miss (data : List Nat) (offset : Nat) (px : Nat → Nat) (r q : Nat)
    (h : q < r * 640 ∨ r * 640 + 32 ≤ q) :
    decodeTileRow data offset px 160 0 0 r q = px q := by
  simp only [decodeTileRow]
  exact foldCols_miss _ _ _ _ _ _ (by
    intro c hc
    have hc8 := List.mem_range.mp hc
    omega)

/-- A fold of row writes over rows away from `q` leaves `q` alone. -/
theorem foldRows_miss (data : List Nat) (offset : Nat) (rs : List Nat) (px : Nat → Nat)
    (q : Nat) (h : ∀ r ∈ rs, q < r * 640 ∨ r * 640 + 32 ≤ q) :
    (rs.foldl (fun acc r => decodeTileRow data offset acc 160 0 0 r) px) q = px q := by
  induction rs generalizing px with
  | nil => rfl
  | cons r rs ih =>
    simp only [List.foldl_cons]
    rw [ih _ (fun r2 hr2 => h r2 (List.mem_cons_of_mem _ hr2))]
    exact rowRead_miss data offset px r q (h r (List.mem_cons_self _ _))

/-- Reading the RGB channels of column `col` from a decoded row returns
the palette entry of the 2bpp index formed from the row's two planar
bytes. -/
theorem decodeTileRow_read (data : List Nat) (offset : Nat) (px : Nat → Nat)
    (row col : Nat) (hcol : col < 8) :
    decodeTileRow data offset px 160 0 0 row ((row * 160 + col) * 4) =
      (PALETTE.getD (((data.getD (offset + row * 2) 0 >>> (7 - col)) &&& 1) |||
        (((data.getD (offset + row * 2 + 1) 0 >>> (7 - col)) &&& 1) <<< 1))
        [0, 0, 0]).getD 0 0 ∧
    decodeTileRow data offset px 160 0 0 row ((row * 160 + col) * 4 + 1) =
      (PALETTE.getD (((data.getD (offset + row * 2) 0 >>> (7 - col)) &&& 1) |||
        (((data.getD (offset + row * 2 + 1) 0 >>> (7 - col)) &&& 1) <<< 1))
        [0, 0, 0]).getD 1 0 ∧
    decodeTileRow data offset px 160 0 0 row ((row * 160 + col) * 4 + 2) =
      (PALETTE.getD (((data.getD (offset + row * 2) 0 >>> (7 - col)) &&& 1) |||
        (((data.getD (offset + row * 2 + 1) 0 >>> (7 - col)) &&& 1) <<< 1))
        [0, 0, 0]).getD 2 0 := by
  simp only [decodeTileRow]
  obtain ⟨s, t, hst⟩ := List.append_of_mem (List.mem_range.mpr hcol)
  rw [hst, List.foldl_append, List.foldl_cons]
  have hnd : (s ++ col :: t).Nodup := by rw [← hst]; exact List.nodup_range 8
  have hcolt : col ∉ t := by
    have h2 : (col :: t).Nodup := hnd.of_append_right
    exact (List.nodup_cons.mp h2).1
  have ht8 : ∀ c ∈ t, c < 8 := by
    intro c hc
    have : c ∈ List.range 8 := by
      rw [hst]; exact List.mem_append_right _ (List.mem_cons_of_mem _ hc)
    exact List.mem_range.mp this
  have hside : ∀ ch : Nat, ch < 4 → ∀ c ∈ t,
      (row * 160 + col) * 4 + ch < (row * 160 + c) * 4 ∨
      (row * 160 + c) * 4 + 4 ≤ (row * 160 + col) * 4 + ch := by
    intro ch hch c hc
    have h1 := ht8 c hc
    have h2 : c ≠ col := fun he => hcolt (he ▸ hc)
    omega
  refine ⟨?_, ?_, ?_⟩
  · rw [foldCols_miss _ _ _ t _ _ (by
      intro c hc
      have := hside 0 (by omega) c hc
      omega)]
    exact (pixelRead_hit _ _ row col _).1
  · rw [foldCols_miss _ _ _ t _ _ (hside 1 (by omega))]
    exact (pixelRead_hit _ _ row col _).2.1
  · rw [foldCols_miss _ _ _ t _ _ (hside 2 (by omega))]
    exact (pixelRead_hit _ _ row col _).2.2

/-- Reading the RGB channels of pixel `(col, row)` of a tile decoded at
the origin of a 160-pixel-wide raster returns the palette entry of the
2bpp index `(lo_bit) OR (hi_bit << 1)` taken from the row's two planar
bytes `data[offset + 2*row]` (lo) and `data[offset + 2*row + 1]` (hi) at
bit position `7 - col`. -/
theorem decodeTile_read (data : List Nat) (offset : Nat) (px0 : Nat → Nat)
    (row col : Nat) (hrow : row < 8) (hcol : col < 8) :
    decodeTile data offset px0 160 0 0 ((row * 160 + col) * 4) =
      (PALETTE.getD (((data.getD (offset + row * 2) 0 >>> (7 - col)) &&& 1) |||
        (((data.getD (offset + row * 2 + 1) 0 >>> (7 - col)) &&& 1) <<< 1))
        [0, 0, 0]).getD 0 0 ∧
    decodeTile data offset px0 160 0 0 ((row * 160 + col) * 4 + 1) =
      (PALETTE.getD (((data.getD (offset + row * 2) 0 >>> (7 - col)) &&& 1) |||
        (((data.getD (offset + row * 2 + 1) 0 >>> (7 - col)) &&& 1) <<< 1))
        [0, 0, 0]).getD 1 0 ∧
    decodeTile data offset px0 160 0 0 ((row * 160 + col) * 4 + 2) =
      (PALETTE.getD (((data.getD (offset + row * 2) 0 >>> (7 - col)) &&& 1) |||
        (((data.getD (offset + row * 2 + 1) 0 >>> (7 - col)) &&& 1) <<< 1))
        [0, 0, 0]).getD 2 0 := by
  simp only [decodeTile]
  obtain ⟨s, t, hst⟩ := List.append_of_mem (List.mem_range.mpr hrow)
  rw [hst, List.foldl_append, List.foldl_cons]
  have hnd : (s ++ row :: t).Nodup := by rw [← hst]; exact List.nodup_range 8
  have hrowt : row ∉ t := by
    have h2 : (row :: t).Nodup := hnd.of_append_right
    exact (List.nodup_cons.mp h2).1
  have ht8 : ∀ r ∈ t, r < 8 := by
    intro r hr
    have : r ∈ List.range 8 := by
      rw [hst]; exact List.mem_append_right _ (List.mem_cons_of_mem _ hr)
    exact List.mem_range.mp this
  have hside : ∀ ch : Nat, ch < 4 → ∀ r ∈ t,
      (row * 160 + col) * 4 + ch < r * 640 ∨ r * 640 + 32 ≤ (row * 160 + col) * 4 + ch := by
    intro ch hch r hr
    have h1 := ht8 r hr
    have h2 : r ≠ row := fun he => hrowt (he ▸ hr)
    omega
  refine ⟨?_, ?_, ?_⟩
  · rw [foldRows_miss data offset t _ _ (by
      intro r hr
      have := hside 0 (by omega) r hr
      omega)]
    exact (decodeTileRow_read data offset _ row col hcol).1
  · rw [foldRows_miss data offset t _ _ (hside 1 (by omega))]
    exact (decodeTileRow_read data offset _ row col hcol).2.1
  · rw [foldRows_miss data offset t _ _ (hside 2 (by omega))]
    exact (decodeTileRow_read data offset _ row col hcol).2.2

set_option maxRecDepth 100000 in
/-- C8: for every tile (any byte offset into the buffer, any underlying
raster contents), the decoder reads two bytes per pixel row (lo then hi)
and, for each column at bit position `7 - col`, produces the palette entry
of color index `(lo_bit) OR (hi_bit << 1)` — palette 255/170/85/0
grayscale, lightest to darkest; consequently an all-zero 16-byte tile
renders as a solid 8x8 block of (255,255,255) and an all-0xFF tile as
(0,0,0). -/
theorem c8_tile_decoding :
    (∀ (data : List Nat) (offset : Nat) (px0 : Nat → Nat) (row col : Nat),
      row < 8 → col < 8 →
      decodeTile data offset px0 160 0 0 ((row * 160 + col) * 4) =
        (PALETTE.getD (((data.getD (offset + row * 2) 0 >>> (7 - col)) &&& 1) |||
          (((data.getD (offset + row * 2 + 1) 0 >>> (7 - col)) &&& 1) <<< 1))
          [0, 0, 0]).getD 0 0 ∧
      decodeTile data offset px0 160 0 0 ((row * 160 + col) * 4 + 1) =
        (PALETTE.getD (((data.getD (offset + row * 2) 0 >>> (7 - col)) &&& 1) |||
          (((data.getD (offset + row * 2 + 1) 0 >>> (7 - col)) &&& 1) <<< 1))
          [0, 0, 0]).getD 1 0 ∧
      decodeTile data offset px0 160 0 0 ((row * 160 + col) * 4 + 2) =
        (PALETTE.getD (((data.getD (offset + row * 2) 0 >>> (7 - col)) &&& 1) |||
          (((data.getD (offset + row * 2 + 1) 0 >>> (7 - col)) &&& 1) <<< 1))
          [0, 0, 0]).getD 2 0) ∧
    (∀ x : Fin 8, ∀ y : Fin 8,
      (renderImage (List.replicate 16 0)).pixels ((y.val * 160 + x.val) * 4) = 255 ∧
      (renderImage (List.replicate 16 0)).pixels ((y.val * 160 + x.val) * 4 + 1) = 255 ∧
      (renderImage (List.replicate 16 0)).pixels ((y.val * 160 + x.val) * 4 + 2) = 255) ∧
    (∀ x : Fin 8, ∀ y : Fin 8,
      (renderImage (List.replicate 16 0xFF)).pixels ((y.val * 160 + x.val) * 4) = 0 ∧
      (renderImage (List.replicate 16 0xFF)).pixels ((y.val * 160 + x.val) * 4 + 1) = 0 ∧
      (renderImage (List.replicate 16 0xFF)).pixels ((y.val * 160 + x.val) * 4 + 2) = 0) := by
  refine ⟨fun data offset px0 row col hrow hcol =>
    decodeTile_read data offset px0 row col hrow hcol, ?_, ?_⟩
  · decide
  · decide

/-- Witness for C8's general clause: pixel (3, 2) of an all-zero tile at
offset 0 decodes to the lightest palette value. -/
theorem c8_witness :
    decodeTile (List.replicate 16 0) 0 (fun _ => 0) 160 0 0 ((2 * 160 + 3) * 4) = 255 :=
  ((c8_tile_decoding.1 (List.replicate 16 0) 0 (fun _ => 0) 2 3
    (by decide) (by decide)).1).trans (by decide)
